import Mathlib

/-!
Shallow embedding of the CryptoAnalyst AI backend core:
the Analysis-Payment orchestration workflow (analysis controller,
payment service webhook reconciliation, wallet service revenue
distribution), translated from the TypeScript source.

Database state is modelled as lists of records; Prisma operations
become list lookups and maps.  External collaborators (payment
gateway, custodial wallet, market-data providers, generation
backend) are modelled as an oracle structure `World` of pure
functions; a call that can fail returns an `Option`.
Machine time (`new Date()`) is passed in explicitly as a `Nat`.
Currency amounts and percentages are modelled as rationals.
-/

namespace CryptoAnalyst

/-- Payment.status values used by the source. -/
inductive PaymentStatus where
  | PENDING
  | COMPLETED
  | FAILED
deriving DecidableEq

/-- Analysis.status values used by the source. -/
inductive AnalysisStatus where
  | PENDING_PAYMENT
  | PROCESSING
  | COMPLETED
  | FAILED
deriving DecidableEq

/-- PaymentDistribution.status values used by the source
(lowercase strings in the source: pending / completed / failed). -/
inductive DistributionStatus where
  | pending
  | completed
  | failed
deriving DecidableEq

/-- The Payment record (prisma model referenced by paymentService). -/
structure Payment where
  id : String
  userId : String
  amount : ℚ
  currency : String
  status : PaymentStatus
  x402PaymentId : Option String := none
  transactionHash : Option String := none
  completedAt : Option Nat := none
deriving DecidableEq

/-- CryptoData as returned by DataService.getCryptoData. -/
structure CryptoData where
  symbol : String
  name : String
  price : ℚ
  marketCap : ℚ
  volume24h : ℚ
  change24h : ℚ
  change7d : ℚ
  change30d : ℚ
  circulatingSupply : ℚ
  totalSupply : ℚ
  maxSupply : Option ℚ := none
  rank : Nat
deriving DecidableEq

/-- MarketData as returned by DataService.getMarketData;
fearGreedIndex is attached afterwards by the controller. -/
structure MarketData where
  totalMarketCap : ℚ
  totalVolume : ℚ
  btcDominance : ℚ
  ethDominance : ℚ
  marketCapChange24h : ℚ
  volumeChange24h : ℚ
  fearGreedIndex : Option Nat := none
deriving DecidableEq

/-- Request parameters accepted by the createAnalysis schema. -/
structure AnalysisParameters where
  symbol : Option String := none
  timeframe : Option String := none
  riskTolerance : Option String := none
  amount : Option ℚ := none
  holdings : Option String := none
  chains : Option String := none
  notes : Option String := none
deriving DecidableEq

/-- The JSON result written onto a completed Analysis. -/
structure AnalysisResult where
  fullAnalysis : String
  executiveSummary : String
  cryptoData : CryptoData
  marketData : MarketData
  generatedAt : Nat
deriving DecidableEq

/-- The Analysis record. -/
structure Analysis where
  id : String
  userId : String
  type : String
  parameters : AnalysisParameters
  status : AnalysisStatus
  price : ℚ
  paymentId : Option String := none
  result : Option AnalysisResult := none
  completedAt : Option Nat := none
deriving DecidableEq

/-- A configured Stakeholder row (walletId, percentage, type, isActive). -/
structure Stakeholder where
  walletId : String
  percentage : ℚ
  type : String
  isActive : Bool
deriving DecidableEq

/-- A PaymentDistribution row. -/
structure PaymentDistribution where
  paymentId : String
  recipient : String
  amount : ℚ
  type : String
  status : DistributionStatus
  txHash : Option String := none
deriving DecidableEq

/-- The persisted state the core mutates. -/
structure DB where
  payments : List Payment := []
  analyses : List Analysis := []
  distributions : List PaymentDistribution := []
  stakeholders : List Stakeholder := []
deriving DecidableEq

/-- Oracle for every external collaborator the core calls.
`transfer amount destination` returns the transaction hash on
success and `none` on failure (createTransfer / wait throwing).
`platformWallet` records whether initializePlatformWallet ran.
`getCryptoData` already includes the CoinGecko fallback of the
source: `none` means both providers failed.  `fearGreedRaw` is the
raw provider response; the service substitutes 50 on failure. -/
structure World where
  platformWallet : Bool
  transfer : ℚ → String → Option String
  getCryptoData : String → Option CryptoData
  getMarketData : Option MarketData
  fearGreedRaw : Option Nat
  generateAnalysis : String → CryptoData → MarketData → AnalysisParameters → Option String
  generateExecutiveSummary : String → Option String
  createX402Payment : String → ℚ → Option String

/-- DataService.getFearGreedIndex: returns the provider value, or
the neutral fallback 50 when the fetch fails. -/
def getFearGreedIndex (w : World) : Nat :=
  w.fearGreedRaw.getD 50

/-- prisma.payment.update where { id }: map the matching records. -/
def updatePaymentsWhere (ps : List Payment) (pid : String) (f : Payment → Payment) :
    List Payment :=
  ps.map (fun q => if q.id == pid then f q else q)

/-- prisma.payment.update: fails (throws) when no record matches;
otherwise returns the new DB and the updated record. -/
def prismaPaymentUpdate (db : DB) (pid : String) (f : Payment → Payment) :
    Option (DB × Payment) :=
  match db.payments.find? (fun q => q.id == pid) with
  | none => none
  | some p => some ({ db with payments := updatePaymentsWhere db.payments pid f }, f p)

/-- prisma.analysis.update where { id }: map the matching records. -/
def updateAnalysesWhere (l : List Analysis) (aid : String) (f : Analysis → Analysis) :
    List Analysis :=
  l.map (fun a => if a.id == aid then f a else a)

/-- Observable steps of one WalletService.distributePayment call,
in the order the source performs them. -/
inductive DistributeEvent where
  | persistPending (rows : List PaymentDistribution)
  | transferAttempt (recipient : String) (amount : ℚ)
  | markCompleted (recipient : String) (txHash : String)
  | markFailed (recipient : String)
deriving DecidableEq

/-- Errors thrown by WalletService.distributePayment before any
per-recipient work starts. -/
inductive WalletError where
  | platformWalletMissing
  | paymentNotFound
deriving DecidableEq

/-- The pending rows distributePayment computes: one per active
stakeholder, amount = totalAmount * (percentage / 100). -/
def computedDistributions (stakeholders : List Stakeholder) (paymentId : String)
    (totalAmount : ℚ) : List PaymentDistribution :=
  (stakeholders.filter (fun s => s.isActive)).map (fun s =>
    { paymentId := paymentId
      recipient := s.walletId
      amount := totalAmount * (s.percentage / 100)
      type := s.type
      status := DistributionStatus.pending
      txHash := none })

/-- prisma.paymentDistribution.updateMany
where { paymentId, recipient, type } data { status: completed, txHash }. -/
def markCompletedRows (rows : List PaymentDistribution) (pid recipient ty tx : String) :
    List PaymentDistribution :=
  rows.map (fun r =>
    if r.paymentId == pid && r.recipient == recipient && r.type == ty then
      { r with status := DistributionStatus.completed, txHash := some tx }
    else r)

/-- prisma.paymentDistribution.updateMany
where { paymentId, recipient, type } data { status: failed }
(the source leaves txHash untouched on failure). -/
def markFailedRows (rows : List PaymentDistribution) (pid recipient ty : String) :
    List PaymentDistribution :=
  rows.map (fun r =>
    if r.paymentId == pid && r.recipient == recipient && r.type == ty then
      { r with status := DistributionStatus.failed }
    else r)

/-- The transfer loop of distributePayment: for each computed row,
attempt the transfer; on success mark the matching rows completed
with the transaction hash, on failure mark them failed and continue
with the next recipient (the try/catch sits inside the loop). -/
def runTransfers (w : World) (pid : String) :
    List PaymentDistribution → DB → DB × List DistributeEvent
  | [], db => (db, [])
  | d :: rest, db =>
    match w.transfer d.amount d.recipient with
    | some tx =>
      let db1 := { db with
        distributions := markCompletedRows db.distributions pid d.recipient d.type tx }
      let out := runTransfers w pid rest db1
      (out.1, DistributeEvent.transferAttempt d.recipient d.amount ::
        DistributeEvent.markCompleted d.recipient tx :: out.2)
    | none =>
      let db1 := { db with
        distributions := markFailedRows db.distributions pid d.recipient d.type }
      let out := runTransfers w pid rest db1
      (out.1, DistributeEvent.transferAttempt d.recipient d.amount ::
        DistributeEvent.markFailed d.recipient :: out.2)

/-- WalletService.distributePayment(paymentId, totalAmount).
Checks the platform wallet, looks the payment up (throwing when
absent), computes one pending row per active stakeholder, persists
them all (createMany), then runs the transfer loop.  There is no
check for distribution rows that already exist for the payment. -/
def distributePayment (w : World) (db : DB) (paymentId : String) (totalAmount : ℚ) :
    DB × List DistributeEvent × Option WalletError :=
  if w.platformWallet = false then
    (db, [], some WalletError.platformWalletMissing)
  else
    match db.payments.find? (fun p => p.id == paymentId) with
    | none => (db, [], some WalletError.paymentNotFound)
    | some _ =>
      let rows := computedDistributions db.stakeholders paymentId totalAmount
      let db1 := { db with distributions := db.distributions ++ rows }
      let out := runTransfers w paymentId rows db1
      (out.1, DistributeEvent.persistPending rows :: out.2, none)

/-- The webhook payload fields the source destructures. -/
structure WebhookPayload where
  reference : Option String := none
  status : Option String := none
  transaction_hash : Option String := none
deriving DecidableEq

/-- Errors surfaced (rethrown) by handlePaymentWebhook. -/
inductive WebhookError where
  | recordNotFound
  | distributionError (e : WalletError)
deriving DecidableEq

/-- PaymentService.processPaymentCompletion: find the analysis bound
to the payment and, when present, set its status to PROCESSING. -/
def processPaymentCompletion (db : DB) (paymentId : String) : DB :=
  match db.analyses.find? (fun a => a.paymentId == some paymentId) with
  | none => db
  | some a =>
    { db with analyses := (updateAnalysesWhere db.analyses a.id
        (fun b => { b with status := AnalysisStatus.PROCESSING })) }

/-- PaymentService.handlePaymentWebhook(payload, signature).
Signature verification is commented out in the source, so the
`signature` argument is received but never read.  A completed
status updates the payment unconditionally (no check that it is
currently PENDING), then runs processPaymentCompletion and
distributePayment; a failed status sets FAILED unconditionally;
any other status falls through without error. -/
def handlePaymentWebhook (w : World) (now : Nat) (db : DB)
    (payload : WebhookPayload) (signature : Option String) :
    DB × Option WebhookError :=
  if payload.status = some "completed" then
    match payload.reference with
    | none => (db, some WebhookError.recordNotFound)
    | some paymentId =>
      match prismaPaymentUpdate db paymentId (fun p =>
          { p with status := PaymentStatus.COMPLETED,
                   transactionHash := payload.transaction_hash,
                   completedAt := some now }) with
      | none => (db, some WebhookError.recordNotFound)
      | some (db1, payment) =>
        let db2 := processPaymentCompletion db1 payment.id
        let out := distributePayment w db2 paymentId payment.amount
        (out.1, out.2.2.map WebhookError.distributionError)
  else if payload.status = some "failed" then
    match payload.reference with
    | none => (db, some WebhookError.recordNotFound)
    | some paymentId =>
      match prismaPaymentUpdate db paymentId (fun p =>
          { p with status := PaymentStatus.FAILED }) with
      | none => (db, some WebhookError.recordNotFound)
      | some (db1, _) => (db1, none)
  else (db, none)

/-- config.pricing from utils/config.ts. -/
structure PricingConfig where
  basicOverview : ℚ
  technicalAnalysis : ℚ
  fundamentalAnalysis : ℚ
  portfolioReview : ℚ
  marketSentiment : ℚ
  defiOpportunities : ℚ
deriving DecidableEq

/-- The configured pricing table values. -/
def pricingConfig : PricingConfig :=
  { basicOverview := 10
    technicalAnalysis := 25
    fundamentalAnalysis := 35
    portfolioReview := 45
    marketSentiment := 20
    defiOpportunities := 50 }

/-- The JavaScript bracket access config.pricing[type]: defined only
at the literal property names of the pricing object. -/
def pricingLookup (ty : String) : Option ℚ :=
  if ty = "basicOverview" then some pricingConfig.basicOverview
  else if ty = "technicalAnalysis" then some pricingConfig.technicalAnalysis
  else if ty = "fundamentalAnalysis" then some pricingConfig.fundamentalAnalysis
  else if ty = "portfolioReview" then some pricingConfig.portfolioReview
  else if ty = "marketSentiment" then some pricingConfig.marketSentiment
  else if ty = "defiOpportunities" then some pricingConfig.defiOpportunities
  else none

/-- The (type, price) pairs advertised by getAnalysisTypes. -/
def analysisTypesList : List (String × ℚ) :=
  [("BASIC_OVERVIEW", pricingConfig.basicOverview),
   ("TECHNICAL_ANALYSIS", pricingConfig.technicalAnalysis),
   ("FUNDAMENTAL_ANALYSIS", pricingConfig.fundamentalAnalysis),
   ("PORTFOLIO_REVIEW", pricingConfig.portfolioReview),
   ("MARKET_SENTIMENT", pricingConfig.marketSentiment),
   ("DEFI_OPPORTUNITIES", pricingConfig.defiOpportunities)]

/-- The type values accepted by the createAnalysis Joi schema. -/
def createAnalysisValidTypes : List String :=
  ["BASIC_OVERVIEW", "TECHNICAL_ANALYSIS", "FUNDAMENTAL_ANALYSIS",
   "PORTFOLIO_REVIEW", "MARKET_SENTIMENT", "DEFI_OPPORTUNITIES"]

/-- Error responses of createAnalysisRequest. -/
inductive CreateAnalysisError where
  | invalidCategory
  | internalError
deriving DecidableEq

/-- The JSON body returned on success. -/
structure CreateAnalysisResponse where
  analysisId : String
  paymentId : String
  price : ℚ
deriving DecidableEq

/-- analysisController.createAnalysisRequest.  Fresh record ids are
supplied explicitly.  Looks the price up with config.pricing[type]
(the guard `if (!price)` also rejects a zero price, JavaScript
falsiness); creates the Analysis in PENDING_PAYMENT; creates the
Payment in PENDING; calls the x402 gateway (on gateway failure the
Analysis and the PENDING Payment both persist, unlinked, and the
controller answers with a 500); stores the gateway id on the
Payment; links the Payment onto the Analysis. -/
def createAnalysisRequest (w : World) (db : DB)
    (freshAnalysisId freshPaymentId : String)
    (userId ty : String) (parameters : AnalysisParameters) :
    DB × Except CreateAnalysisError CreateAnalysisResponse :=
  match pricingLookup ty with
  | none => (db, Except.error CreateAnalysisError.invalidCategory)
  | some price =>
    if price = 0 then (db, Except.error CreateAnalysisError.invalidCategory)
    else
      let analysis : Analysis :=
        { id := freshAnalysisId
          userId := userId
          type := ty
          parameters := parameters
          status := AnalysisStatus.PENDING_PAYMENT
          price := price }
      let db1 := { db with analyses := db.analyses ++ [analysis] }
      let payment : Payment :=
        { id := freshPaymentId
          userId := userId
          amount := price
          currency := "USD"
          status := PaymentStatus.PENDING }
      let db2 := { db1 with payments := db1.payments ++ [payment] }
      match w.createX402Payment freshPaymentId price with
      | none => (db2, Except.error CreateAnalysisError.internalError)
      | some x402Id =>
        let db3 := { db2 with payments := (updatePaymentsWhere db2.payments
            freshPaymentId (fun p => { p with x402PaymentId := some x402Id })) }
        let db4 := { db3 with analyses := (updateAnalysesWhere db3.analyses
            freshAnalysisId (fun a => { a with paymentId := some freshPaymentId })) }
        (db4, Except.ok
          { analysisId := freshAnalysisId, paymentId := freshPaymentId, price := price })

/-- Error responses of processAnalysis. -/
inductive ProcessAnalysisError where
  | notFound
  | paymentIncomplete
  | generationFailed
deriving DecidableEq

/-- JavaScript `analysis.parameters.symbol || BTC-string`:
an absent or empty symbol falls back to BTC. -/
def symbolOrDefault (parameters : AnalysisParameters) : String :=
  match parameters.symbol with
  | none => "BTC"
  | some s => if s = "" then "BTC" else s

/-- analysisController.processAnalysis.  404 when the analysis is
absent; 400 when the linked payment (via include) is not COMPLETED
— the gate runs before any mutation and before any external call;
then sets PROCESSING unless already there, fetches crypto and
market data, attaches the fear-and-greed index, generates the
report and summary, and saves the COMPLETED result.  Any failure in
the fetch or generation path is caught: status is set to FAILED and
a 500 is returned. -/
def processAnalysis (w : World) (now : Nat) (db : DB) (analysisId : String) :
    DB × Except ProcessAnalysisError AnalysisResult :=
  match db.analyses.find? (fun a => a.id == analysisId) with
  | none => (db, Except.error ProcessAnalysisError.notFound)
  | some a =>
    let linkedPayment : Option Payment :=
      a.paymentId.bind (fun pid => db.payments.find? (fun p => p.id == pid))
    if linkedPayment.map Payment.status ≠ some PaymentStatus.COMPLETED then
      (db, Except.error ProcessAnalysisError.paymentIncomplete)
    else
      let db1 :=
        if a.status ≠ AnalysisStatus.PROCESSING then
          { db with analyses := (updateAnalysesWhere db.analyses analysisId
              (fun b => { b with status := AnalysisStatus.PROCESSING })) }
        else db
      let failed :=
        { db1 with analyses := (updateAnalysesWhere db1.analyses analysisId
            (fun b => { b with status := AnalysisStatus.FAILED })) }
      match w.getCryptoData (symbolOrDefault a.parameters), w.getMarketData with
      | some cryptoData, some marketData =>
        let enhanced := { marketData with fearGreedIndex := some (getFearGreedIndex w) }
        match w.generateAnalysis a.type cryptoData enhanced a.parameters with
        | some fullText =>
          match w.generateExecutiveSummary fullText with
          | some summary =>
            let result : AnalysisResult :=
              { fullAnalysis := fullText
                executiveSummary := summary
                cryptoData := cryptoData
                marketData := enhanced
                generatedAt := now }
            let db2 :=
              { db1 with analyses := (updateAnalysesWhere db1.analyses analysisId
                  (fun b => { b with status := AnalysisStatus.COMPLETED,
                                     result := some result,
                                     completedAt := some now })) }
            (db2, Except.ok result)
          | none => (failed, Except.error ProcessAnalysisError.generationFailed)
        | none => (failed, Except.error ProcessAnalysisError.generationFailed)
      | _, _ => (failed, Except.error ProcessAnalysisError.generationFailed)

/-- Error response of getAnalysis. -/
inductive GetAnalysisError where
  | notFound
deriving DecidableEq

/-- analysisController.getAnalysis: findFirst where { id, userId }.
The same 404 answers both an unknown id and an id owned by another
user. -/
def getAnalysis (db : DB) (analysisId userId : String) :
    Except GetAnalysisError Analysis :=
  match db.analyses.find? (fun a => a.id == analysisId && a.userId == userId) with
  | none => Except.error GetAnalysisError.notFound
  | some a => Except.ok a

/-- getPaymentStatus response shape: the payment with its included
distributions and analysis relations. -/
structure PaymentWithRelations where
  payment : Payment
  distributions : List PaymentDistribution
  analysis : Option Analysis
deriving DecidableEq

/-- PaymentService.getPaymentStatus: findUnique by id with
include { distributions, analysis }; no filter on the owning user. -/
def getPaymentStatus (db : DB) (paymentId : String) : Option PaymentWithRelations :=
  (db.payments.find? (fun p => p.id == paymentId)).map (fun p =>
    { payment := p
      distributions := db.distributions.filter (fun r => r.paymentId == paymentId)
      analysis := db.analyses.find? (fun a => a.paymentId == some paymentId) })

/-- Error response of the payment status route. -/
inductive PaymentRouteError where
  | notFound
deriving DecidableEq

/-- routes/payments GET /:paymentId/status: the authenticated
requester is available on the request but the handler reads only
the paymentId parameter; a missing payment answers 404. -/
def paymentStatusRoute (db : DB) (requesterUserId : String) (paymentId : String) :
    Except PaymentRouteError PaymentWithRelations :=
  match getPaymentStatus db paymentId with
  | none => Except.error PaymentRouteError.notFound
  | some pw => Except.ok pw

/-! Concrete fixtures used to evaluate the embedded operations. -/

/-- An oracle where the platform wallet is ready, transfers to
wallet w2 fail and all other transfers succeed, and the gateway
accepts intents; the data and generation backends are irrelevant to
the payment-side runs below. -/
def demoWorld : World :=
  { platformWallet := true
    transfer := fun _ dest => if dest = "w2" then none else some "0xtx"
    getCryptoData := fun _ => none
    getMarketData := none
    fearGreedRaw := none
    generateAnalysis := fun _ _ _ _ => none
    generateExecutiveSummary := fun _ => none
    createX402Payment := fun _ _ => some "x402-1" }

/-- A payment awaiting its webhook. -/
def pendingPayment : Payment :=
  { id := "pay1", userId := "alice", amount := 100, currency := "USD",
    status := PaymentStatus.PENDING }

/-- An active stakeholder whose transfers succeed under demoWorld. -/
def stakeholderPlatform : Stakeholder :=
  { walletId := "w1", percentage := 60, type := "platform", isActive := true }

/-- An active stakeholder whose transfers fail under demoWorld. -/
def stakeholderResearch : Stakeholder :=
  { walletId := "w2", percentage := 40, type := "researcher", isActive := true }

/-- State holding the pending payment and the two stakeholders. -/
def webhookDB : DB :=
  { payments := [pendingPayment],
    stakeholders := [stakeholderPlatform, stakeholderResearch] }

/-- A well-formed completed notification for pay1. -/
def completedPayload : WebhookPayload :=
  { reference := some "pay1", status := some "completed",
    transaction_hash := some "0xabc" }

/-- The state after the first delivery of completedPayload (machine
time 1). -/
def afterFirstDelivery : DB :=
  (handlePaymentWebhook demoWorld 1 webhookDB completedPayload (some "sig")).1

/-- The state after a second, duplicate delivery (machine time 2). -/
def afterSecondDelivery : DB :=
  (handlePaymentWebhook demoWorld 2 afterFirstDelivery completedPayload (some "sig")).1

/-- Recognizes a transfer-attempt event by its constructor alone. -/
def isTransferAttempt : DistributeEvent → Bool
  | DistributeEvent.transferAttempt _ _ => true
  | _ => false

/-- Number of transfer attempts recorded in an event trace. -/
def transferAttemptCount (evs : List DistributeEvent) : Nat :=
  (evs.filter isTransferAttempt).length

/-- C1 (counterexample): the second application of the same
completed payload is not a no-op.  The first delivery creates one
distribution row per active stakeholder (two rows) and stamps
completedAt with time 1; the duplicate delivery re-runs the
completion side effects, appending two further rows, and rewrites
the payment record, moving completedAt to time 2 — so the payment
record changes and the side effects run again, refuting the claim
that a repeat notification leaves the record unchanged. -/
theorem handlePaymentWebhook_second_application_not_noop :
    afterFirstDelivery.distributions.length = 2 ∧
    afterSecondDelivery.distributions.length = 4 ∧
    (afterFirstDelivery.payments.find? (fun p => p.id == "pay1")).map
      Payment.completedAt = some (some 1) ∧
    (afterSecondDelivery.payments.find? (fun p => p.id == "pay1")).map
      Payment.completedAt = some (some 2) := by
  refine ⟨by decide, by decide, by decide, by decide⟩

/-- State in which distribution rows for pay1 already exist, as
left by a first completed delivery. -/
def dbWithExistingRows : DB := afterFirstDelivery

/-- C2 (counterexample): re-invoking distributePayment for a
payment that already has distribution rows appends a fresh row per
active stakeholder (two more, for four in total) and attempts two
further transfers, refuting the claim that the re-invocation
creates no additional rows and executes no additional transfers. -/
theorem distributePayment_reinvocation_adds_rows :
    dbWithExistingRows.distributions.length = 2 ∧
    (distributePayment demoWorld dbWithExistingRows "pay1" 100).1.distributions.length = 4 ∧
    transferAttemptCount (distributePayment demoWorld dbWithExistingRows "pay1" 100).2.1 = 2 ∧
    (distributePayment demoWorld dbWithExistingRows "pay1" 100).2.2 = none := by
  refine ⟨by decide, by decide, by decide, by decide⟩

/-- C3 (code evaluated at the failing input): a well-formed
completed payload delivered with no signature at all is fully
processed — the handler reports success, transitions pay1 from
PENDING to COMPLETED, and creates the two distribution rows —
because the signature check is commented out in the source; the
outcome is identical to a delivery carrying any signature string. -/
theorem handlePaymentWebhook_processes_unsigned_payload :
    (webhookDB.payments.find? (fun p => p.id == "pay1")).map Payment.status =
      some PaymentStatus.PENDING ∧
    webhookDB.distributions.length = 0 ∧
    (handlePaymentWebhook demoWorld 1 webhookDB completedPayload none).2 = none ∧
    ((handlePaymentWebhook demoWorld 1 webhookDB completedPayload none).1.payments.find?
      (fun p => p.id == "pay1")).map Payment.status = some PaymentStatus.COMPLETED ∧
    (handlePaymentWebhook demoWorld 1 webhookDB completedPayload none).1.distributions.length
      = 2 ∧
    handlePaymentWebhook demoWorld 1 webhookDB completedPayload none =
      handlePaymentWebhook demoWorld 1 webhookDB completedPayload (some "any-signature") := by
  refine ⟨by decide, by decide, by decide, by decide, by decide, rfl⟩

/-- C4 (code evaluated at the failing input): TECHNICAL_ANALYSIS is
advertised by the types endpoint at price 25 and is one of the
categories the request schema admits, yet config.pricing[type] is
undefined at every advertised category name — the pricing object is
keyed camelCase — so createAnalysisRequest rejects the advertised
category TECHNICAL_ANALYSIS as invalid while the unadvertised key
technicalAnalysis would succeed at price 25 with the Analysis
created in PENDING_PAYMENT. -/
theorem createAnalysisRequest_rejects_advertised_categories :
    ("TECHNICAL_ANALYSIS", (25 : ℚ)) ∈ analysisTypesList ∧
    "TECHNICAL_ANALYSIS" ∈ createAnalysisValidTypes ∧
    (∀ ty ∈ createAnalysisValidTypes, pricingLookup ty = none) ∧
    createAnalysisRequest demoWorld ({} : DB) "a1" "p1" "alice" "TECHNICAL_ANALYSIS" {} =
      (({} : DB), Except.error CreateAnalysisError.invalidCategory) ∧
    pricingLookup "technicalAnalysis" = some 25 ∧
    (createAnalysisRequest demoWorld ({} : DB) "a1" "p1" "alice" "technicalAnalysis" {}).2 =
      Except.ok { analysisId := "a1", paymentId := "p1", price := 25 } ∧
    ((createAnalysisRequest demoWorld ({} : DB) "a1" "p1" "alice" "technicalAnalysis"
        {}).1.analyses.find? (fun a => a.id == "a1")).map Analysis.status =
      some AnalysisStatus.PENDING_PAYMENT := by
  refine ⟨?_, by decide, by decide, rfl, rfl, rfl, by decide⟩
  simp [analysisTypesList, pricingConfig]

/-! Helper lemmas about the embedded operations. -/

/-- The per-recipient events one row of the transfer loop emits. -/
def transferEvents (w : World) (d : PaymentDistribution) : List DistributeEvent :=
  match w.transfer d.amount d.recipient with
  | some tx => [DistributeEvent.transferAttempt d.recipient d.amount,
                DistributeEvent.markCompleted d.recipient tx]
  | none => [DistributeEvent.transferAttempt d.recipient d.amount,
             DistributeEvent.markFailed d.recipient]

/-- The final state of one freshly created row after its transfer
resolves: completed with the transaction hash, or failed. -/
def resolveRow (w : World) (d : PaymentDistribution) : PaymentDistribution :=
  match w.transfer d.amount d.recipient with
  | some tx => { d with status := DistributionStatus.completed, txHash := some tx }
  | none => { d with status := DistributionStatus.failed }

theorem map_id_of_mem {α : Type} {l : List α} {g : α → α}
    (h : ∀ x ∈ l, g x = x) : l.map g = l := by
  induction l with
  | nil => rfl
  | cons x xs ih =>
    simp only [List.map_cons, h x (List.mem_cons_self x xs)]
    rw [ih (fun y hy => h y (List.mem_cons_of_mem x hy))]

theorem runTransfers_payments (w : World) (pid : String) :
    ∀ (todo : List PaymentDistribution) (db : DB),
      (runTransfers w pid todo db).1.payments = db.payments := by
  intro todo
  induction todo with
  | nil => intro db; rfl
  | cons d rest ih =>
    intro db
    cases h : w.transfer d.amount d.recipient <;> simp [runTransfers, h, ih]

theorem runTransfers_analyses (w : World) (pid : String) :
    ∀ (todo : List PaymentDistribution) (db : DB),
      (runTransfers w pid todo db).1.analyses = db.analyses := by
  intro todo
  induction todo with
  | nil => intro db; rfl
  | cons d rest ih =>
    intro db
    cases h : w.transfer d.amount d.recipient <;> simp [runTransfers, h, ih]

theorem runTransfers_stakeholders (w : World) (pid : String) :
    ∀ (todo : List PaymentDistribution) (db : DB),
      (runTransfers w pid todo db).1.stakeholders = db.stakeholders := by
  intro todo
  induction todo with
  | nil => intro db; rfl
  | cons d rest ih =>
    intro db
    cases h : w.transfer d.amount d.recipient <;> simp [runTransfers, h, ih]

theorem runTransfers_distributions_length (w : World) (pid : String) :
    ∀ (todo : List PaymentDistribution) (db : DB),
      (runTransfers w pid todo db).1.distributions.length = db.distributions.length := by
  intro todo
  induction todo with
  | nil => intro db; rfl
  | cons d rest ih =>
    intro db
    cases h : w.transfer d.amount d.recipient <;>
      simp [runTransfers, h, ih, markCompletedRows, markFailedRows]

theorem runTransfers_events (w : World) (pid : String) :
    ∀ (todo : List PaymentDistribution) (db : DB),
      (runTransfers w pid todo db).2 = todo.flatMap (transferEvents w) := by
  intro todo
  induction todo with
  | nil => intro db; rfl
  | cons d rest ih =>
    intro db
    cases h : w.transfer d.amount d.recipient <;>
      simp [runTransfers, h, ih, transferEvents, List.flatMap_cons]

theorem transferAttemptCount_append (l1 l2 : List DistributeEvent) :
    transferAttemptCount (l1 ++ l2) = transferAttemptCount l1 + transferAttemptCount l2 := by
  simp [transferAttemptCount, List.filter_append]

theorem transferAttemptCount_transferEvents (w : World) (d : PaymentDistribution) :
    transferAttemptCount (transferEvents w d) = 1 := by
  cases h : w.transfer d.amount d.recipient <;>
    simp [transferEvents, h, transferAttemptCount, isTransferAttempt]

theorem transferAttemptCount_bind (w : World) (todo : List PaymentDistribution) :
    transferAttemptCount (todo.flatMap (transferEvents w)) = todo.length := by
  induction todo with
  | nil => rfl
  | cons d rest ih =>
    simp [List.flatMap_cons, transferAttemptCount_append, ih,
      transferAttemptCount_transferEvents, Nat.add_comm]

theorem processPaymentCompletion_payments (db : DB) (pid : String) :
    (processPaymentCompletion db pid).payments = db.payments := by
  cases h : db.analyses.find? (fun a => a.paymentId == some pid) <;>
    simp [processPaymentCompletion, h]

theorem processPaymentCompletion_distributions (db : DB) (pid : String) :
    (processPaymentCompletion db pid).distributions = db.distributions := by
  cases h : db.analyses.find? (fun a => a.paymentId == some pid) <;>
    simp [processPaymentCompletion, h]

theorem processPaymentCompletion_stakeholders (db : DB) (pid : String) :
    (processPaymentCompletion db pid).stakeholders = db.stakeholders := by
  cases h : db.analyses.find? (fun a => a.paymentId == some pid) <;>
    simp [processPaymentCompletion, h]

theorem find?_updatePaymentsWhere (ps : List Payment) (pid : String)
    (f : Payment → Payment) (hf : ∀ q, (f q).id = q.id) :
    (updatePaymentsWhere ps pid f).find? (fun q => q.id == pid) =
      (ps.find? (fun q => q.id == pid)).map f := by
  induction ps with
  | nil => rfl
  | cons q rest ih =>
    by_cases h : q.id = pid
    · simp [updatePaymentsWhere, List.find?_cons, h, hf]
    · simp only [updatePaymentsWhere, List.map_cons] at ih ⊢
      rw [if_neg (by simp [h])]
      rw [List.find?_cons_of_neg _ (by simp [h]), List.find?_cons_of_neg _ (by simp [h])]
      exact ih

theorem markCompletedRows_split (pid : String) (frozen rest : List PaymentDistribution)
    (d : PaymentDistribution) (tx : String) (hd : d.paymentId = pid)
    (hfz : ∀ r ∈ frozen, ¬(r.paymentId = pid ∧ r.recipient = d.recipient ∧ r.type = d.type))
    (hrest : ∀ r ∈ rest, r.recipient ≠ d.recipient ∨ r.type ≠ d.type) :
    markCompletedRows (frozen ++ d :: rest) pid d.recipient d.type tx =
      frozen ++ ({ d with status := DistributionStatus.completed, txHash := some tx }) :: rest := by
  unfold markCompletedRows
  rw [List.map_append, List.map_cons]
  have h1 : frozen.map (fun r =>
      if r.paymentId == pid && r.recipient == d.recipient && r.type == d.type then
        { r with status := DistributionStatus.completed, txHash := some tx }
      else r) = frozen := by
    apply map_id_of_mem
    intro r hr
    rw [if_neg]
    simp only [Bool.and_eq_true, beq_iff_eq, not_and]
    intro h1 h2
    exact hfz r hr ⟨h1.1, h1.2, h2⟩
  have h2 : rest.map (fun r =>
      if r.paymentId == pid && r.recipient == d.recipient && r.type == d.type then
        { r with status := DistributionStatus.completed, txHash := some tx }
      else r) = rest := by
    apply map_id_of_mem
    intro r hr
    rw [if_neg]
    simp only [Bool.and_eq_true, beq_iff_eq, not_and]
    intro h1 h2
    rcases hrest r hr with h | h
    · exact absurd h1.2 h
    · exact absurd h2 h
  rw [h1, h2, if_pos (by simp [hd])]

theorem markFailedRows_split (pid : String) (frozen rest : List PaymentDistribution)
    (d : PaymentDistribution) (hd : d.paymentId = pid)
    (hfz : ∀ r ∈ frozen, ¬(r.paymentId = pid ∧ r.recipient = d.recipient ∧ r.type = d.type))
    (hrest : ∀ r ∈ rest, r.recipient ≠ d.recipient ∨ r.type ≠ d.type) :
    markFailedRows (frozen ++ d :: rest) pid d.recipient d.type =
      frozen ++ ({ d with status := DistributionStatus.failed }) :: rest := by
  unfold markFailedRows
  rw [List.map_append, List.map_cons]
  have h1 : frozen.map (fun r =>
      if r.paymentId == pid && r.recipient == d.recipient && r.type == d.type then
        { r with status := DistributionStatus.failed }
      else r) = frozen := by
    apply map_id_of_mem
    intro r hr
    rw [if_neg]
    simp only [Bool.and_eq_true, beq_iff_eq, not_and]
    intro h1 h2
    exact hfz r hr ⟨h1.1, h1.2, h2⟩
  have h2 : rest.map (fun r =>
      if r.paymentId == pid && r.recipient == d.recipient && r.type == d.type then
        { r with status := DistributionStatus.failed }
      else r) = rest := by
    apply map_id_of_mem
    intro r hr
    rw [if_neg]
    simp only [Bool.and_eq_true, beq_iff_eq, not_and]
    intro h1 h2
    rcases hrest r hr with h | h
    · exact absurd h1.2 h
    · exact absurd h2 h
  rw [h1, h2, if_pos (by simp [hd])]

/-- Characterization of the transfer loop: when the rows still to
process carry the paymentId, have pairwise distinct
(recipient, type) keys, and no other row in the store collides with
them, each row ends up exactly in its resolved state and nothing
else changes. -/
theorem runTransfers_distributions_spec (w : World) (pid : String) :
    ∀ (todo frozen : List PaymentDistribution) (db : DB),
      db.distributions = frozen ++ todo →
      (∀ d ∈ todo, d.paymentId = pid) →
      todo.Pairwise (fun d e => d.recipient ≠ e.recipient ∨ d.type ≠ e.type) →
      (∀ r ∈ frozen, ∀ d ∈ todo,
        ¬(r.paymentId = pid ∧ r.recipient = d.recipient ∧ r.type = d.type)) →
      (runTransfers w pid todo db).1.distributions = frozen ++ todo.map (resolveRow w) := by
  intro todo
  induction todo with
  | nil =>
    intro frozen db hdb _ _ _
    simpa [runTransfers] using hdb
  | cons d rest ih =>
    intro frozen db hdb hpid hpw hfz
    have hd : d.paymentId = pid := hpid d (List.mem_cons_self d rest)
    have hpw' := List.pairwise_cons.mp hpw
    have hrest : ∀ r ∈ rest, r.recipient ≠ d.recipient ∨ r.type ≠ d.type := by
      intro r hr
      rcases hpw'.1 r hr with h | h
      · exact Or.inl (fun e => h e.symm)
      · exact Or.inr (fun e => h e.symm)
    have hfzd : ∀ r ∈ frozen, ¬(r.paymentId = pid ∧ r.recipient = d.recipient ∧
        r.type = d.type) := fun r hr => hfz r hr d (List.mem_cons_self d rest)
    have hresKey : (resolveRow w d).recipient = d.recipient ∧ (resolveRow w d).type = d.type := by
      cases htr : w.transfer d.amount d.recipient <;> simp [resolveRow, htr]
    have hinv : ∀ r ∈ frozen ++ [resolveRow w d], ∀ e ∈ rest,
        ¬(r.paymentId = pid ∧ r.recipient = e.recipient ∧ r.type = e.type) := by
      intro r hr e he
      rcases List.mem_append.mp hr with hr | hr
      · exact hfz r hr e (List.mem_cons_of_mem d he)
      · have hrd : r = resolveRow w d := by simpa using hr
        subst hrd
        intro hcol
        rcases hrest e he with h | h
        · exact h (hresKey.1 ▸ hcol.2.1).symm
        · exact h (hresKey.2 ▸ hcol.2.2).symm
    cases htr : w.transfer d.amount d.recipient with
    | some tx =>
      have hres : resolveRow w d =
          { d with status := DistributionStatus.completed, txHash := some tx } := by
        simp [resolveRow, htr]
      have hmark : markCompletedRows db.distributions pid d.recipient d.type tx =
          frozen ++ resolveRow w d :: rest := by
        rw [hdb, hres]; exact markCompletedRows_split pid frozen rest d tx hd hfzd hrest
      have step := ih (frozen ++ [resolveRow w d])
        { db with distributions := markCompletedRows db.distributions pid d.recipient d.type tx }
        (by simp [hmark])
        (fun e he => hpid e (List.mem_cons_of_mem d he))
        hpw'.2
        hinv
      simp only [runTransfers, htr]
      rw [step, List.map_cons]
      simp
    | none =>
      have hres : resolveRow w d = { d with status := DistributionStatus.failed } := by
        simp [resolveRow, htr]
      have hmark : markFailedRows db.distributions pid d.recipient d.type =
          frozen ++ resolveRow w d :: rest := by
        rw [hdb, hres]; exact markFailedRows_split pid frozen rest d hd hfzd hrest
      have step := ih (frozen ++ [resolveRow w d])
        { db with distributions := markFailedRows db.distributions pid d.recipient d.type }
        (by simp [hmark])
        (fun e he => hpid e (List.mem_cons_of_mem d he))
        hpw'.2
        hinv
      simp only [runTransfers, htr]
      rw [step, List.map_cons]
      simp

theorem distributePayment_unfold (w : World) (db : DB) (pid : String) (amt : ℚ)
    (hw : w.platformWallet = true) (p : Payment)
    (hp : db.payments.find? (fun q => q.id == pid) = some p) :
    distributePayment w db pid amt =
      ((runTransfers w pid (computedDistributions db.stakeholders pid amt)
          { db with distributions :=
              db.distributions ++ computedDistributions db.stakeholders pid amt }).1,
        DistributeEvent.persistPending (computedDistributions db.stakeholders pid amt) ::
          (computedDistributions db.stakeholders pid amt).flatMap (transferEvents w),
        none) := by
  simp only [distributePayment, hw, hp]
  simp [runTransfers_events]

theorem distributePayment_growth (w : World) (db : DB) (pid : String) (amt : ℚ)
    (hw : w.platformWallet = true) (p : Payment)
    (hp : db.payments.find? (fun q => q.id == pid) = some p) :
    (distributePayment w db pid amt).1.distributions.length =
      db.distributions.length + (db.stakeholders.filter (fun s => s.isActive)).length ∧
    (distributePayment w db pid amt).1.payments = db.payments ∧
    (distributePayment w db pid amt).1.analyses = db.analyses ∧
    transferAttemptCount (distributePayment w db pid amt).2.1 =
      (db.stakeholders.filter (fun s => s.isActive)).length ∧
    (distributePayment w db pid amt).2.2 = none := by
  rw [distributePayment_unfold w db pid amt hw p hp]
  refine ⟨?_, ?_, ?_, ?_, rfl⟩
  · rw [runTransfers_distributions_length]
    simp [computedDistributions]
  · rw [runTransfers_payments]
  · rw [runTransfers_analyses]
  · have h1 : transferAttemptCount
        (DistributeEvent.persistPending (computedDistributions db.stakeholders pid amt) ::
          (computedDistributions db.stakeholders pid amt).flatMap (transferEvents w)) =
        transferAttemptCount
          ((computedDistributions db.stakeholders pid amt).flatMap (transferEvents w)) := by
      simp [transferAttemptCount, isTransferAttempt]
    rw [h1, transferAttemptCount_bind]
    simp [computedDistributions]

/-- C2 (amended): distributePayment performs no idempotency check
keyed by the payment identifier.  Whenever the platform wallet is
ready and the payment exists — with no assumption about existing
distribution rows — the invocation appends exactly one new row per
active stakeholder, attempts exactly one transfer per active
stakeholder, leaves the payment and analysis tables alone, and
reports no error. -/
theorem distributePayment_no_idempotency_guard (w : World) (db : DB)
    (pid : String) (amt : ℚ) (hw : w.platformWallet = true) (p : Payment)
    (hp : db.payments.find? (fun q => q.id == pid) = some p) :
    (distributePayment w db pid amt).1.distributions.length =
      db.distributions.length + (db.stakeholders.filter (fun s => s.isActive)).length ∧
    (distributePayment w db pid amt).1.payments = db.payments ∧
    transferAttemptCount (distributePayment w db pid amt).2.1 =
      (db.stakeholders.filter (fun s => s.isActive)).length ∧
    (distributePayment w db pid amt).2.2 = none := by
  have h := distributePayment_growth w db pid amt hw p hp
  exact ⟨h.1, h.2.1, h.2.2.2.1, h.2.2.2.2⟩

/-- The pay1 record as the first completed delivery leaves it. -/
def completedPay1 : Payment :=
  { id := "pay1", userId := "alice", amount := 100, currency := "USD",
    status := PaymentStatus.COMPLETED, x402PaymentId := none,
    transactionHash := some "0xabc", completedAt := some 1 }

/-- Witness for the amended C2 statement at a state that already
holds distribution rows for pay1. -/
theorem distributePayment_no_idempotency_guard_witness :
    demoWorld.platformWallet = true ∧
    dbWithExistingRows.payments.find? (fun q => q.id == "pay1") = some completedPay1 ∧
    (distributePayment demoWorld dbWithExistingRows "pay1" 100).1.distributions.length =
      dbWithExistingRows.distributions.length +
        (dbWithExistingRows.stakeholders.filter (fun s => s.isActive)).length ∧
    transferAttemptCount (distributePayment demoWorld dbWithExistingRows "pay1" 100).2.1 =
      (dbWithExistingRows.stakeholders.filter (fun s => s.isActive)).length ∧
    (distributePayment demoWorld dbWithExistingRows "pay1" 100).2.2 = none := by
  have h := distributePayment_no_idempotency_guard demoWorld dbWithExistingRows
    "pay1" 100 rfl completedPay1 (by rfl)
  exact ⟨rfl, by rfl, h.1, h.2.2.1, h.2.2.2⟩

/-- C1 (amended): handlePaymentWebhook applies the COMPLETED
transition unconditionally — there is no check that the payment is
currently PENDING.  Every delivery of a completed payload for an
existing payment, whatever its current status (in particular when
it is already COMPLETED), rewrites the record with a fresh
completedAt, re-runs the completion hook and the distribution,
appending one new distribution row per active stakeholder, and
acknowledges success. -/
theorem handlePaymentWebhook_unconditional_completion (w : World) (now : Nat)
    (db : DB) (pid : String) (th sig : Option String) (p : Payment)
    (hw : w.platformWallet = true)
    (hp : db.payments.find? (fun q => q.id == pid) = some p) :
    ((handlePaymentWebhook w now db ⟨some pid, some "completed", th⟩ sig).1.payments.find?
        (fun q => q.id == pid)) =
      some { p with status := PaymentStatus.COMPLETED, transactionHash := th,
                    completedAt := some now } ∧
    (handlePaymentWebhook w now db
        ⟨some pid, some "completed", th⟩ sig).1.distributions.length =
      db.distributions.length + (db.stakeholders.filter (fun s => s.isActive)).length ∧
    (handlePaymentWebhook w now db ⟨some pid, some "completed", th⟩ sig).2 = none := by
  simp only [handlePaymentWebhook, prismaPaymentUpdate, hp, reduceIte]
  have hfind1 : (updatePaymentsWhere db.payments pid (fun q =>
      { q with status := PaymentStatus.COMPLETED, transactionHash := th,
               completedAt := some now })).find? (fun q => q.id == pid) =
      some { p with status := PaymentStatus.COMPLETED, transactionHash := th,
                    completedAt := some now } := by
    rw [find?_updatePaymentsWhere db.payments pid
      (fun q => { q with status := PaymentStatus.COMPLETED, transactionHash := th,
                         completedAt := some now })
      (fun q => rfl), hp]
    rfl
  have hg := distributePayment_growth w
    (processPaymentCompletion
      { db with payments := updatePaymentsWhere db.payments pid (fun q =>
          { q with status := PaymentStatus.COMPLETED, transactionHash := th,
                   completedAt := some now }) } p.id)
    pid p.amount hw
    ({ p with status := PaymentStatus.COMPLETED, transactionHash := th,
              completedAt := some now })
    (by rw [processPaymentCompletion_payments]; exact hfind1)
  refine ⟨?_, ?_, ?_⟩
  · rw [hg.2.1, processPaymentCompletion_payments]
    exact hfind1
  · rw [hg.1, processPaymentCompletion_distributions, processPaymentCompletion_stakeholders]
  · rw [hg.2.2.2.2]
    rfl

/-- Witness for the amended C1 statement: the delivery is applied
to a state whose payment is already COMPLETED (left by the first
delivery) and still rewrites the record and re-runs distribution. -/
theorem handlePaymentWebhook_unconditional_completion_witness :
    demoWorld.platformWallet = true ∧
    afterFirstDelivery.payments.find? (fun q => q.id == "pay1") = some completedPay1 ∧
    completedPay1.status = PaymentStatus.COMPLETED ∧
    ((handlePaymentWebhook demoWorld 2 afterFirstDelivery
        ⟨some "pay1", some "completed", some "0xabc"⟩ (some "sig")).1.payments.find?
        (fun q => q.id == "pay1")) =
      some ({ completedPay1 with status := PaymentStatus.COMPLETED, transactionHash := some "0xabc", completedAt := some 2 }) ∧
    (handlePaymentWebhook demoWorld 2 afterFirstDelivery
        ⟨some "pay1", some "completed", some "0xabc"⟩ (some "sig")).1.distributions.length =
      afterFirstDelivery.distributions.length +
        (afterFirstDelivery.stakeholders.filter (fun s => s.isActive)).length ∧
    (handlePaymentWebhook demoWorld 2 afterFirstDelivery
        ⟨some "pay1", some "completed", some "0xabc"⟩ (some "sig")).2 = none := by
  have h := handlePaymentWebhook_unconditional_completion demoWorld 2 afterFirstDelivery
    "pay1" (some "0xabc") (some "sig") completedPay1 rfl (by rfl)
  exact ⟨rfl, by rfl, rfl, h.1, h.2.1, h.2.2⟩

/-- C5: the payment gate of processAnalysis.  Whenever the analysis
exists but its linked payment (looked up through the stored
paymentId) is not COMPLETED — an absent link included — the call
answers PaymentIncomplete, leaves the whole state untouched, and
runs no generation step: the result is the same for every oracle. -/
theorem processAnalysis_payment_gate (w : World) (now : Nat) (db : DB)
    (aid : String) (a : Analysis)
    (ha : db.analyses.find? (fun b => b.id == aid) = some a)
    (hgate : (a.paymentId.bind (fun pid => db.payments.find? (fun p => p.id == pid))).map
        Payment.status ≠ some PaymentStatus.COMPLETED) :
    processAnalysis w now db aid = (db, Except.error ProcessAnalysisError.paymentIncomplete) := by
  simp only [processAnalysis, ha]
  rw [if_pos hgate]

/-- An analysis that is itself COMPLETED but whose payment is still
PENDING: the gate must fire regardless of the analysis status. -/
def gateAnalysis : Analysis :=
  { id := "an1", userId := "alice", type := "technicalAnalysis",
    parameters := {}, status := AnalysisStatus.COMPLETED, price := 25,
    paymentId := some "pay1" }

/-- State for the payment-gate witness. -/
def gateDB : DB := { payments := [pendingPayment], analyses := [gateAnalysis] }

/-- Witness for C5: the analysis record has status COMPLETED, its
linked payment is PENDING, and processAnalysis still answers
PaymentIncomplete with the state unchanged. -/
theorem processAnalysis_payment_gate_witness :
    gateDB.analyses.find? (fun b => b.id == "an1") = some gateAnalysis ∧
    gateAnalysis.status = AnalysisStatus.COMPLETED ∧
    ((gateAnalysis.paymentId.bind (fun pid =>
        gateDB.payments.find? (fun p => p.id == pid))).map Payment.status ≠
      some PaymentStatus.COMPLETED) ∧
    processAnalysis demoWorld 5 gateDB "an1" =
      (gateDB, Except.error ProcessAnalysisError.paymentIncomplete) := by
  refine ⟨by rfl, rfl, by decide, ?_⟩
  exact processAnalysis_payment_gate demoWorld 5 gateDB "an1" gateAnalysis (by rfl) (by decide)

/-- C9: getAnalysis returns an analysis exactly when it carries the
requested id and the requesting user id, and whenever no stored
analysis with the requested id belongs to the requester — whether
the id is absent altogether or present under another owner — the
response is the very same NotFound, so the two situations are
indistinguishable to the caller. -/
theorem getAnalysis_ownership_masking (db : DB) (analysisId userId : String) :
    (∀ a, getAnalysis db analysisId userId = Except.ok a →
      a ∈ db.analyses ∧ a.id = analysisId ∧ a.userId = userId) ∧
    ((∀ a ∈ db.analyses, a.id = analysisId → a.userId ≠ userId) →
      getAnalysis db analysisId userId = Except.error GetAnalysisError.notFound) := by
  constructor
  · intro a hok
    cases hfind : db.analyses.find? (fun b => b.id == analysisId && b.userId == userId) with
    | none => simp [getAnalysis, hfind] at hok
    | some b =>
      simp only [getAnalysis, hfind, Except.ok.injEq] at hok
      subst hok
      have hpred := List.find?_some hfind
      have hmem := List.mem_of_find?_eq_some hfind
      simp only [Bool.and_eq_true, beq_iff_eq] at hpred
      exact ⟨hmem, hpred.1, hpred.2⟩
  · intro hmask
    have hnone : db.analyses.find? (fun b => b.id == analysisId && b.userId == userId) =
        none := by
      rw [List.find?_eq_none]
      intro a ha
      simp only [Bool.and_eq_true, beq_iff_eq, not_and]
      intro h1 h2
      exact hmask a ha h1 h2
    simp [getAnalysis, hnone]

/-- An analysis owned by alice, target of the masking witness. -/
def aliceAnalysis : Analysis :=
  { id := "an1", userId := "alice", type := "basicOverview",
    parameters := {}, status := AnalysisStatus.PENDING_PAYMENT, price := 10 }

/-- State for the masking witness. -/
def maskDB : DB := { analyses := [aliceAnalysis] }

/-- Witness for C9: the response to bob asking for an existing
analysis owned by alice and the response to bob asking for an id
that exists nowhere are the same NotFound value. -/
theorem getAnalysis_ownership_masking_witness :
    (∀ a ∈ maskDB.analyses, a.id = "an1" → a.userId ≠ "bob") ∧
    getAnalysis maskDB "an1" "bob" = Except.error GetAnalysisError.notFound ∧
    (∀ a ∈ maskDB.analyses, a.id = "ghost" → a.userId ≠ "bob") ∧
    getAnalysis maskDB "ghost" "bob" = Except.error GetAnalysisError.notFound := by
  refine ⟨by decide, ?_, by decide, ?_⟩
  · exact (getAnalysis_ownership_masking maskDB "an1" "bob").2 (by decide)
  · exact (getAnalysis_ownership_masking maskDB "ghost" "bob").2 (by decide)

/-- C10: the payment status route applies no ownership check: its
response does not depend on which authenticated user asks, and for
any stored payment it returns the payment bundled with its
distributions and linked analysis, with no precondition relating
the owning user to the requester and no not-found masking. -/
theorem getPaymentStatus_no_ownership_filter (db : DB)
    (requesterA requesterB paymentId : String) :
    paymentStatusRoute db requesterA paymentId =
      paymentStatusRoute db requesterB paymentId ∧
    (∀ p, db.payments.find? (fun q => q.id == paymentId) = some p →
      paymentStatusRoute db requesterA paymentId = Except.ok
        { payment := p
          distributions := db.distributions.filter (fun r => r.paymentId == paymentId)
          analysis := db.analyses.find? (fun a => a.paymentId == some paymentId) }) := by
  constructor
  · rfl
  · intro p hp
    simp [paymentStatusRoute, getPaymentStatus, hp]

/-- Witness for C10: bob (not the owner alice) retrieves the
payment, and the response equals the one any other requester gets. -/
theorem getPaymentStatus_no_ownership_filter_witness :
    pendingPayment.userId = "alice" ∧
    webhookDB.payments.find? (fun q => q.id == "pay1") = some pendingPayment ∧
    paymentStatusRoute webhookDB "bob" "pay1" = paymentStatusRoute webhookDB "carol" "pay1" ∧
    paymentStatusRoute webhookDB "bob" "pay1" = Except.ok
      { payment := pendingPayment
        distributions := webhookDB.distributions.filter (fun r => r.paymentId == "pay1")
        analysis := webhookDB.analyses.find? (fun a => a.paymentId == some "pay1") } := by
  have h := getPaymentStatus_no_ownership_filter webhookDB "bob" "carol" "pay1"
  exact ⟨rfl, by rfl, h.1, h.2 pendingPayment (by rfl)⟩

/-- C7: record-before-transfer ordering.  The very first event of a
distribute invocation persists the full pending row set — one row
per active stakeholder, each in status pending — and every transfer
attempt sits at a strictly later position in the trace; exactly one
transfer attempt per active stakeholder follows. -/
theorem distributePayment_record_before_transfer (w : World) (db : DB)
    (pid : String) (amt : ℚ) (hw : w.platformWallet = true) (p : Payment)
    (hp : db.payments.find? (fun q => q.id == pid) = some p) :
    ∃ rows, (distributePayment w db pid amt).2.1.head? =
        some (DistributeEvent.persistPending rows) ∧
      (∀ r ∈ rows, r.status = DistributionStatus.pending) ∧
      (∀ s ∈ db.stakeholders.filter (fun s => s.isActive),
        ({ paymentId := pid, recipient := s.walletId,
           amount := amt * (s.percentage / 100), type := s.type,
           status := DistributionStatus.pending, txHash := none } :
          PaymentDistribution) ∈ rows) ∧
      transferAttemptCount (distributePayment w db pid amt).2.1 =
        (db.stakeholders.filter (fun s => s.isActive)).length ∧
      (∀ i rec a, (distributePayment w db pid amt).2.1.get? i =
        some (DistributeEvent.transferAttempt rec a) → 0 < i) := by
  rw [distributePayment_unfold w db pid amt hw p hp]
  refine ⟨computedDistributions db.stakeholders pid amt, rfl, ?_, ?_, ?_, ?_⟩
  · intro r hr
    obtain ⟨s, _, rfl⟩ := List.mem_map.mp hr
    rfl
  · intro s hs
    exact List.mem_map_of_mem _ hs
  · show transferAttemptCount (DistributeEvent.persistPending _ :: _) = _
    have h1 : transferAttemptCount
        (DistributeEvent.persistPending (computedDistributions db.stakeholders pid amt) ::
          (computedDistributions db.stakeholders pid amt).flatMap (transferEvents w)) =
        transferAttemptCount
          ((computedDistributions db.stakeholders pid amt).flatMap (transferEvents w)) := by
      simp [transferAttemptCount, isTransferAttempt]
    rw [h1, transferAttemptCount_bind]
    simp [computedDistributions]
  · intro i rec a hi
    cases i with
    | zero => simp at hi
    | succ n => exact Nat.succ_pos n

/-- Witness for C7 at the two-stakeholder state. -/
theorem distributePayment_record_before_transfer_witness :
    demoWorld.platformWallet = true ∧
    webhookDB.payments.find? (fun q => q.id == "pay1") = some pendingPayment ∧
    (∃ rows, (distributePayment demoWorld webhookDB "pay1" 100).2.1.head? =
        some (DistributeEvent.persistPending rows) ∧
      (∀ r ∈ rows, r.status = DistributionStatus.pending) ∧
      (∀ s ∈ webhookDB.stakeholders.filter (fun s => s.isActive),
        ({ paymentId := "pay1", recipient := s.walletId,
           amount := 100 * (s.percentage / 100), type := s.type,
           status := DistributionStatus.pending, txHash := none } :
          PaymentDistribution) ∈ rows) ∧
      transferAttemptCount (distributePayment demoWorld webhookDB "pay1" 100).2.1 =
        (webhookDB.stakeholders.filter (fun s => s.isActive)).length ∧
      (∀ i rec a, (distributePayment demoWorld webhookDB "pay1" 100).2.1.get? i =
        some (DistributeEvent.transferAttempt rec a) → 0 < i)) :=
  ⟨rfl, by rfl, distributePayment_record_before_transfer demoWorld webhookDB
    "pay1" 100 rfl pendingPayment (by rfl)⟩

theorem sum_scaled (amt : ℚ) (l : List Stakeholder) :
    ((l.map (fun s => amt * (s.percentage / 100))).sum) =
      amt * ((l.map (fun s => s.percentage)).sum) / 100 := by
  induction l with
  | nil => simp
  | cons s rest ih =>
    simp only [List.map_cons, List.sum_cons, ih]
    ring

/-- C8: for a stakeholder configuration whose active percentages
sum to 100, the rows persisted by distribute carry amounts
totalAmount * (percentage / 100) and these amounts sum exactly to
the total (the arithmetic is modelled in the rationals, so the sum
is exact rather than within a rounding tolerance). -/
theorem distributePayment_amounts_sum (w : World) (db : DB) (pid : String) (amt : ℚ)
    (hw : w.platformWallet = true) (p : Payment)
    (hp : db.payments.find? (fun q => q.id == pid) = some p)
    (hsum : ((db.stakeholders.filter (fun s => s.isActive)).map
        (fun s => s.percentage)).sum = 100) :
    ∃ rows, (distributePayment w db pid amt).2.1.head? =
        some (DistributeEvent.persistPending rows) ∧
      rows.length = (db.stakeholders.filter (fun s => s.isActive)).length ∧
      (∀ s ∈ db.stakeholders.filter (fun s => s.isActive),
        ({ paymentId := pid, recipient := s.walletId,
           amount := amt * (s.percentage / 100), type := s.type,
           status := DistributionStatus.pending, txHash := none } :
          PaymentDistribution) ∈ rows) ∧
      (rows.map (fun r => r.amount)).sum = amt := by
  rw [distributePayment_unfold w db pid amt hw p hp]
  refine ⟨computedDistributions db.stakeholders pid amt, rfl, ?_, ?_, ?_⟩
  · simp [computedDistributions]
  · intro s hs
    exact List.mem_map_of_mem _ hs
  · have hmap : (computedDistributions db.stakeholders pid amt).map (fun r => r.amount) =
        (db.stakeholders.filter (fun s => s.isActive)).map
          (fun s => amt * (s.percentage / 100)) := by
      simp [computedDistributions, List.map_map]
    rw [hmap, sum_scaled, hsum, mul_div_assoc]
    norm_num

/-- Witness for C8: platform 60 percent plus researcher 40 percent
sum to 100, and the persisted amounts sum to the full 100 paid. -/
theorem distributePayment_amounts_sum_witness :
    demoWorld.platformWallet = true ∧
    webhookDB.payments.find? (fun q => q.id == "pay1") = some pendingPayment ∧
    ((webhookDB.stakeholders.filter (fun s => s.isActive)).map
        (fun s => s.percentage)).sum = 100 ∧
    (∃ rows, (distributePayment demoWorld webhookDB "pay1" 100).2.1.head? =
        some (DistributeEvent.persistPending rows) ∧
      rows.length = (webhookDB.stakeholders.filter (fun s => s.isActive)).length ∧
      (∀ s ∈ webhookDB.stakeholders.filter (fun s => s.isActive),
        ({ paymentId := "pay1", recipient := s.walletId,
           amount := 100 * (s.percentage / 100), type := s.type,
           status := DistributionStatus.pending, txHash := none } :
          PaymentDistribution) ∈ rows) ∧
      (rows.map (fun r => r.amount)).sum = 100) := by
  have hsum : ((webhookDB.stakeholders.filter (fun s => s.isActive)).map
      (fun s => s.percentage)).sum = 100 := by
    show ((([stakeholderPlatform, stakeholderResearch] : List Stakeholder).filter
      (fun s => s.isActive)).map (fun s => s.percentage)).sum = 100
    norm_num [stakeholderPlatform, stakeholderResearch]
  exact ⟨rfl, by rfl, hsum, distributePayment_amounts_sum demoWorld webhookDB
    "pay1" 100 rfl pendingPayment (by rfl) hsum⟩

/-- The pending row distribute computes for one stakeholder. -/
def pendingRowFor (pid : String) (amt : ℚ) (s : Stakeholder) : PaymentDistribution :=
  { paymentId := pid, recipient := s.walletId, amount := amt * (s.percentage / 100),
    type := s.type, status := DistributionStatus.pending, txHash := none }

/-- C6: per-recipient failure isolation within one distribute
invocation.  When the active stakeholders have pairwise distinct
(wallet, type) keys and no rows for the payment pre-exist, every
active stakeholder gets a transfer attempt — failures of other
recipients notwithstanding — and each stakeholder's row ends
completed with the transfer reference when its own transfer
succeeds, failed when it fails. -/
theorem distributePayment_failure_isolation (w : World) (db : DB)
    (pid : String) (amt : ℚ) (hw : w.platformWallet = true) (p : Payment)
    (hp : db.payments.find? (fun q => q.id == pid) = some p)
    (hclean : ∀ r ∈ db.distributions, r.paymentId ≠ pid)
    (hkeys : (db.stakeholders.filter (fun s => s.isActive)).Pairwise
      (fun s t => s.walletId ≠ t.walletId ∨ s.type ≠ t.type)) :
    ∀ s ∈ db.stakeholders.filter (fun s => s.isActive),
      (DistributeEvent.transferAttempt s.walletId (amt * (s.percentage / 100))) ∈
        (distributePayment w db pid amt).2.1 ∧
      (∀ tx, w.transfer (amt * (s.percentage / 100)) s.walletId = some tx →
        ({ paymentId := pid, recipient := s.walletId,
           amount := amt * (s.percentage / 100), type := s.type,
           status := DistributionStatus.completed, txHash := some tx } :
          PaymentDistribution) ∈ (distributePayment w db pid amt).1.distributions) ∧
      (w.transfer (amt * (s.percentage / 100)) s.walletId = none →
        ({ paymentId := pid, recipient := s.walletId,
           amount := amt * (s.percentage / 100), type := s.type,
           status := DistributionStatus.failed, txHash := none } :
          PaymentDistribution) ∈ (distributePayment w db pid amt).1.distributions) := by
  intro s hs
  rw [distributePayment_unfold w db pid amt hw p hp]
  have hrowmem : pendingRowFor pid amt s ∈ computedDistributions db.stakeholders pid amt :=
    List.mem_map_of_mem _ hs
  have hchar : (runTransfers w pid (computedDistributions db.stakeholders pid amt)
      { db with distributions :=
          db.distributions ++ computedDistributions db.stakeholders pid amt }).1.distributions =
      db.distributions ++
        (computedDistributions db.stakeholders pid amt).map (resolveRow w) := by
    apply runTransfers_distributions_spec w pid _ db.distributions _ rfl
    · intro d hd
      obtain ⟨t, _, rfl⟩ := List.mem_map.mp hd
      rfl
    · exact List.pairwise_map.mpr hkeys
    · intro r hr d _
      exact fun hcol => hclean r hr hcol.1
  refine ⟨?_, ?_, ?_⟩
  · show DistributeEvent.transferAttempt s.walletId (amt * (s.percentage / 100)) ∈
      DistributeEvent.persistPending (computedDistributions db.stakeholders pid amt) ::
        (computedDistributions db.stakeholders pid amt).flatMap (transferEvents w)
    apply List.mem_cons_of_mem
    apply List.mem_flatMap.mpr
    refine ⟨_, hrowmem, ?_⟩
    cases htr : w.transfer (amt * (s.percentage / 100)) s.walletId with
    | some tx => simp [transferEvents, pendingRowFor, htr]
    | none => simp [transferEvents, pendingRowFor, htr]
  · intro tx htx
    show _ ∈ (runTransfers w pid (computedDistributions db.stakeholders pid amt)
      { db with distributions :=
          db.distributions ++ computedDistributions db.stakeholders pid amt }).1.distributions
    rw [hchar]
    apply List.mem_append_right
    apply List.mem_map.mpr
    refine ⟨_, hrowmem, ?_⟩
    simp [resolveRow, pendingRowFor, htx]
  · intro htx
    show _ ∈ (runTransfers w pid (computedDistributions db.stakeholders pid amt)
      { db with distributions :=
          db.distributions ++ computedDistributions db.stakeholders pid amt }).1.distributions
    rw [hchar]
    apply List.mem_append_right
    apply List.mem_map.mpr
    refine ⟨_, hrowmem, ?_⟩
    simp [resolveRow, pendingRowFor, htx]

/-- Witness for C6: with the platform stakeholder (wallet w1) and
the researcher stakeholder (wallet w2) both active, the transfer to
w2 fails while the transfer to w1 succeeds; the w1 row is completed
with the transfer reference, the w2 row is failed, and the w2
transfer was attempted even though the other recipient existed. -/
theorem distributePayment_failure_isolation_witness :
    demoWorld.platformWallet = true ∧
    webhookDB.payments.find? (fun q => q.id == "pay1") = some pendingPayment ∧
    (∀ r ∈ webhookDB.distributions, r.paymentId ≠ "pay1") ∧
    (webhookDB.stakeholders.filter (fun s => s.isActive)).Pairwise
      (fun s t => s.walletId ≠ t.walletId ∨ s.type ≠ t.type) ∧
    demoWorld.transfer (100 * (stakeholderPlatform.percentage / 100))
      stakeholderPlatform.walletId = some "0xtx" ∧
    demoWorld.transfer (100 * (stakeholderResearch.percentage / 100))
      stakeholderResearch.walletId = none ∧
    ({ paymentId := "pay1", recipient := stakeholderPlatform.walletId,
       amount := 100 * (stakeholderPlatform.percentage / 100),
       type := stakeholderPlatform.type,
       status := DistributionStatus.completed, txHash := some "0xtx" } :
      PaymentDistribution) ∈
      (distributePayment demoWorld webhookDB "pay1" 100).1.distributions ∧
    ({ paymentId := "pay1", recipient := stakeholderResearch.walletId,
       amount := 100 * (stakeholderResearch.percentage / 100),
       type := stakeholderResearch.type,
       status := DistributionStatus.failed, txHash := none } :
      PaymentDistribution) ∈
      (distributePayment demoWorld webhookDB "pay1" 100).1.distributions ∧
    (DistributeEvent.transferAttempt stakeholderResearch.walletId
      (100 * (stakeholderResearch.percentage / 100))) ∈
      (distributePayment demoWorld webhookDB "pay1" 100).2.1 := by
  have hfil : webhookDB.stakeholders.filter (fun s => s.isActive) =
      [stakeholderPlatform, stakeholderResearch] := rfl
  have hmem1 : stakeholderPlatform ∈ webhookDB.stakeholders.filter (fun s => s.isActive) := by
    rw [hfil]; exact List.mem_cons_self _ _
  have hmem2 : stakeholderResearch ∈ webhookDB.stakeholders.filter (fun s => s.isActive) := by
    rw [hfil]; exact List.mem_cons_of_mem _ (List.mem_cons_self _ _)
  have h1 := distributePayment_failure_isolation demoWorld webhookDB "pay1" 100 rfl
    pendingPayment (by rfl) (by decide) (by decide) stakeholderPlatform hmem1
  have h2 := distributePayment_failure_isolation demoWorld webhookDB "pay1" 100 rfl
    pendingPayment (by rfl) (by decide) (by decide) stakeholderResearch hmem2
  exact ⟨rfl, by rfl, by decide, by decide, rfl, rfl,
    h1.2.1 "0xtx" rfl, h2.2.2 rfl, h2.1⟩

end CryptoAnalyst
